import Mathlib

/-!
Verification development for the SleepMonitor repository's analysis script
(`python_plotting_script/analyze_breathing_data.py`).

The script's parsing and derivation pipeline is embedded shallowly:
- bytes of a `.dat` file are a `List Nat` (each entry one byte);
- text files are a `String`;
- machine floats are modelled as exact rationals `ℚ`;
- fallible steps (`struct.unpack` failures, `float()` conversion failures,
  indexing an empty array) return `Except Err`.

The scipy collaborators `signal.butter` and `signal.lfilter_zi` compute filter
coefficients by transcendental design formulas in double precision; their
outputs are modelled as parameters (`FilterCoeffs`).  `signal.lfilter` itself
(the direct-form-II-transposed recurrence) is embedded exactly.
-/

/-- Errors the script can raise while building a `BreathingMonitorFile`:
`structError` models `struct.error` from `struct.unpack` on a short buffer,
`valueError s` models `ValueError` from `float(s)` on a non-numeric field `s`,
`indexError` models `IndexError` from indexing `[0]` into an empty array. -/
inductive Err where
  | structError : Err
  | valueError : String → Err
  | indexError : Err
deriving DecidableEq, Repr

/-- Big-endian interpretation of a byte list as an unsigned integer
(`int.from_bytes(bs, "big")`). -/
def readBEBytes (bs : List Nat) : Nat :=
  bs.foldl (fun n b => n * 256 + b) 0

/-- `struct.unpack(">q", bs)`: big-endian two's-complement signed 64-bit
integer. -/
def int64OfBytes (bs : List Nat) : Int :=
  let n := readBEBytes bs
  if n < 2 ^ 63 then (n : Int) else (n : Int) - 2 ^ 64

/-- `struct.unpack(">f", bs)`: big-endian IEEE-754 binary32, decoded exactly
into `ℚ`.  The non-finite encodings (exponent 255: infinities and NaNs) have
no rational value and are mapped to 0; no claim inspects such a sample. -/
def decodeF32 (bs : List Nat) : ℚ :=
  let bits := readBEBytes bs
  let sign : ℚ := if bits / 2 ^ 31 % 2 = 1 then -1 else 1
  let e : Nat := bits / 2 ^ 23 % 2 ^ 8
  let frac : Nat := bits % 2 ^ 23
  if e = 255 then 0
  else if e = 0 then sign * (frac : ℚ) / 2 ^ 149
  else sign * ((2 ^ 23 + frac : Nat) : ℚ) * 2 ^ e / 2 ^ 150

/-- `struct.unpack(">q10f", chunk)` for a 48-byte record: one big-endian
signed 64-bit integer followed by ten big-endian 32-bit floats.  The script
appends all eleven numbers to its channel lists, so a record is the
11-element list of parsed numbers (the integer cast to `ℚ`, as `np.float64`
conversion is modelled exactly). -/
def unpackRecord (chunk : List Nat) : List ℚ :=
  ((int64OfBytes (chunk.take 8) : Int) : ℚ) ::
    (List.range 10).map (fun i => decodeF32 ((chunk.drop (8 + 4 * i)).take 4))

/-- The record-reading loop of `BreathingMonitorFile.__init__` (binary
branch): repeatedly `read(48)`; an empty read ends the loop, a read of
1–47 bytes makes `struct.unpack` raise `struct.error`, a full 48-byte read
is unpacked and appended.  `fuel` bounds the iteration count and is supplied
as `bs.length`, which always suffices since each iteration consumes 48 > 0
bytes; the `fuel = 0` case is reached only with `bs = []`. -/
def parseRecordsGo : Nat → List Nat → Except Err (List (List ℚ))
  | 0, _ => .ok []
  | fuel + 1, bs =>
    if bs.isEmpty then .ok []
    else if bs.length < 48 then .error .structError
    else
      match parseRecordsGo fuel (bs.drop 48) with
      | .error e => .error e
      | .ok rest => .ok (unpackRecord (bs.take 48) :: rest)

/-- Parse all fixed-size records after the 8-byte header. -/
def parseRecords (bs : List Nat) : Except Err (List (List ℚ)) :=
  parseRecordsGo bs.length bs

/-- `str.split(sep)` for a single-character separator, on the character
list: `"".split(",") = [""]`, separators at the ends produce empty groups. -/
def splitOnChar (sep : Char) : List Char → List (List Char)
  | [] => [[]]
  | c :: rest =>
    if c = sep then [] :: splitOnChar sep rest
    else
      match splitOnChar sep rest with
      | [] => [[c]]
      | grp :: grps => (c :: grp) :: grps

/-- `str.splitlines()` restricted to `"\n"` separators: the empty string has
no lines, and a trailing newline does not open a final empty line. -/
def splitlines (cs : List Char) : List (List Char) :=
  let parts := splitOnChar '\n' cs
  if parts.getLast? = some [] then parts.dropLast else parts

/-- Leading/trailing whitespace stripping, as `float()` strips its input. -/
def stripChars (cs : List Char) : List Char :=
  ((cs.dropWhile Char.isWhitespace).reverse.dropWhile Char.isWhitespace).reverse

/-- Decimal digit list to natural number. -/
def digitsToNat (ds : List Char) : Nat :=
  ds.foldl (fun n c => n * 10 + (c.toNat - 48)) 0

/-- The exponent part of a float literal, after the `e`/`E` marker:
an optional sign, then at least one digit, then nothing. -/
def parseExponentCore (cs : List Char) : Option Int :=
  let signAndRest : Int × List Char :=
    match cs with
    | '+' :: rest => (1, rest)
    | '-' :: rest => (-1, rest)
    | rest => (1, rest)
  let spanned := signAndRest.2.span Char.isDigit
  if spanned.1.isEmpty ∨ ¬ spanned.2.isEmpty then none
  else some (signAndRest.1 * (digitsToNat spanned.1 : Int))

/-- Python `float(s)` on decimal literals: optional surrounding whitespace,
optional sign, digits with an optional single decimal point (at least one
digit overall), optional exponent.  Returns `none` exactly when `float`
raises `ValueError`.  (Digit-group underscores and the `inf`/`nan` spellings
are not modelled; no claim exercises them.) -/
def parseFloatCore (cs : List Char) : Option ℚ :=
  let t := stripChars cs
  let signAndRest : ℚ × List Char :=
    match t with
    | '+' :: rest => (1, rest)
    | '-' :: rest => (-1, rest)
    | rest => (1, rest)
  let ipart := signAndRest.2.span Char.isDigit
  let fpart : List Char × List Char :=
    match ipart.2 with
    | '.' :: rest => rest.span Char.isDigit
    | rest => ([], rest)
  if ipart.1.isEmpty ∧ fpart.1.isEmpty then none
  else
    let mant : ℚ :=
      signAndRest.1 * ((digitsToNat ipart.1 : ℚ) +
        (digitsToNat fpart.1 : ℚ) / 10 ^ fpart.1.length)
    match fpart.2 with
    | [] => some mant
    | c :: rest =>
      if c = 'e' ∨ c = 'E' then
        match parseExponentCore rest with
        | none => none
        | some ex =>
          some (if 0 ≤ ex then mant * 10 ^ ex.toNat else mant / 10 ^ ex.natAbs)
      else none

/-- `float(s)`, with the `ValueError` carrying the offending field text
(Python's message names the string, not the position it occurred at). -/
def parseFloat (cs : List Char) : Except Err ℚ :=
  match parseFloatCore cs with
  | some q => .ok q
  | none => .error (.valueError (String.mk cs))

/-- Left-to-right effectful map over `Except`, stopping at the first error —
the evaluation order of the script's comprehensions and loops. -/
def mapExcept (f : α → Except Err β) : List α → Except Err (List β)
  | [] => .ok []
  | x :: xs =>
    match f x with
    | .error e => .error e
    | .ok y =>
      match mapExcept f xs with
      | .error e => .error e
      | .ok ys => .ok (y :: ys)

/-- One text line: `[float(string) for string in line.split(",")]`. -/
def parseLine (cs : List Char) : Except Err (List ℚ) :=
  mapExcept parseFloat (splitOnChar ',' cs)

/-- Channel `i` after the parse loop: `zip(self.values, numbers)` appends
`numbers[i]` to `values[i]` only when record `i` is long enough, so channel
`i` collects the `i`-th field of every record that has one. -/
def channelOf (records : List (List ℚ)) (i : Nat) : List ℚ :=
  records.filterMap (fun r => r[i]?)

/-- `np.ndarray.mean` (exact rational arithmetic; the empty mean, `NaN` in
numpy, is unobservable because construction fails before exposing it). -/
def mean (xs : List ℚ) : ℚ :=
  xs.sum / (xs.length : ℚ)

/-- One step of scipy's `lfilter` direct-form-II-transposed recurrence with
normalized coefficients `b`, `a` and state `z`. -/
def lfilterStep (b a z : List ℚ) (x : ℚ) : ℚ × List ℚ :=
  let y := b.headD 0 * x + z.headD 0
  (y, (List.range z.length).map
    (fun i => b.getD (i + 1) 0 * x + z.getD (i + 1) 0 - a.getD (i + 1) 0 * y))

/-- Run the recurrence over the input, collecting outputs and the final
state. -/
def lfilterAux (b a : List ℚ) : List ℚ → List ℚ → List ℚ × List ℚ
  | z, [] => ([], z)
  | z, x :: xs =>
    let step := lfilterStep b a z x
    let rest := lfilterAux b a step.2 xs
    (step.1 :: rest.1, rest.2)

/-- `scipy.signal.lfilter(b, a, x, zi=zi)`: coefficients are normalized by
`a[0]`, then the direct-form-II-transposed recurrence runs with initial
state `zi`.  Returns `(y, z_final)`. -/
def lfilter (b a x zi : List ℚ) : List ℚ × List ℚ :=
  let a0 := a.headD 0
  lfilterAux (b.map (fun v => v / a0)) (a.map (fun v => v / a0)) zi x

/-- Coefficients delivered by the scipy collaborators: `signal.butter(3, w,
kind)` and `signal.lfilter_zi(b, a)` for the three designs the script
requests (low-pass 0.1, high-pass 0.3, low-pass 0.15, all order 3).  Their
numeric values are double-precision outputs of transcendental design
formulas, so they enter the model as parameters. -/
structure FilterCoeffs where
  b_low01 : List ℚ
  a_low01 : List ℚ
  zi_low01 : List ℚ
  b_high03 : List ℚ
  a_high03 : List ℚ
  zi_high03 : List ℚ
  b_low015 : List ℚ
  a_low015 : List ℚ
  zi_low015 : List ℚ
deriving DecidableEq, Repr

/-- An input file: `.dat` files take the binary branch, every other file the
text branch. -/
inductive FileInput where
  | binary : List Nat → FileInput
  | text : String → FileInput

/-- The parse phase of `BreathingMonitorFile.__init__` (lines 26–42): the
binary branch unpacks the 8-byte big-endian header, divides it by 1.0e3 and
then reads 48-byte records until end of file; the text branch splits lines
and fields and converts each field with `float`.  The text branch leaves
`start_unix_timestamp` as `None`. -/
def parseInputFile : FileInput → Except Err (Option ℚ × List (List ℚ))
  | .binary bs =>
    if bs.length < 8 then .error .structError
    else
      match parseRecords (bs.drop 8) with
      | .error e => .error e
      | .ok rs => .ok (some (((int64OfBytes (bs.take 8) : Int) : ℚ) / 1000), rs)
  | .text s =>
    match mapExcept parseLine (splitlines s.toList) with
    | .error e => .error e
    | .ok rs => .ok (none, rs)

/-- The fully constructed `BreathingMonitorFile` object: the eleven channel
attributes unpacked from `self.values` (line 44), with `thermistor` holding
the normalized signal that line 48 overwrites it with, plus the derived
`elapsed` and the three filtered signals. -/
structure BreathingMonitorFile where
  start_unix_timestamp : Option ℚ
  timestamps : List ℚ
  positions : List ℚ
  angles : List ℚ
  azimuth : List ℚ
  pitch : List ℚ
  roll : List ℚ
  thermistor : List ℚ
  spo2 : List ℚ
  pulse_rate : List ℚ
  perfusion_index : List ℚ
  mean_spo2_wave : List ℚ
  elapsed : List ℚ
  low_pass : List ℚ
  high_pass : List ℚ
  thermistor_low_pass : List ℚ
deriving DecidableEq, Repr

/-- The derivation phase of `BreathingMonitorFile.__init__` (lines 43–60),
run on the parsed records.  The three `[0]` indexings of the source occur in
source order: `self.timestamps[0]` (line 46), `self.signal[0]` (line 53, and
again line 56), `self.thermistor[0]` (line 60, after line 48 replaced
`self.thermistor` by the mean-centered, 0.02-scaled signal); each raises
`IndexError` when its array is empty.  `signal` is `positions` (line 47). -/
def deriveSignals (c : FilterCoeffs) (start? : Option ℚ) (records : List (List ℚ)) :
    Except Err BreathingMonitorFile :=
  let timestamps := channelOf records 0
  let positions := channelOf records 1
  let thermistorRaw := channelOf records 6
  match timestamps with
  | [] => .error .indexError
  | t0 :: _ =>
    let elapsed := timestamps.map (fun t => t / 1000000000 - t0 / 1000000000)
    let thermistor := thermistorRaw.map (fun v => (v - mean thermistorRaw) * (2 / 100))
    match positions with
    | [] => .error .indexError
    | s0 :: _ =>
      let low_pass := (lfilter c.b_low01 c.a_low01 positions
        (c.zi_low01.map (fun v => v * s0))).1
      let high_pass := (lfilter c.b_high03 c.a_high03 positions
        (c.zi_high03.map (fun v => v * s0))).1
      match thermistor with
      | [] => .error .indexError
      | th0 :: _ =>
        let thermistor_low_pass := (lfilter c.b_low015 c.a_low015 thermistor
          (c.zi_low015.map (fun v => v * th0))).1
        .ok {
          start_unix_timestamp := start?
          timestamps := timestamps
          positions := positions
          angles := channelOf records 2
          azimuth := channelOf records 3
          pitch := channelOf records 4
          roll := channelOf records 5
          thermistor := thermistor
          spo2 := channelOf records 7
          pulse_rate := channelOf records 8
          perfusion_index := channelOf records 9
          mean_spo2_wave := channelOf records 10
          elapsed := elapsed
          low_pass := low_pass
          high_pass := high_pass
          thermistor_low_pass := thermistor_low_pass }

/-- `BreathingMonitorFile(filename)`: parse, then derive. -/
def mkBreathingMonitorFile (c : FilterCoeffs) (f : FileInput) :
    Except Err BreathingMonitorFile :=
  match parseInputFile f with
  | .error e => .error e
  | .ok p => deriveSignals c p.1 p.2

/-- `set_non_zero_ylim` (lines 87–95): drop zero samples; if nothing is
left the limits default to `[0, 1]`, otherwise pad `[min, max]` by
`max(0.1, max - min) * 0.05` on each side.  Returns the limits handed to
`set_ylim`. -/
def set_non_zero_ylim (values : List ℚ) : ℚ × ℚ :=
  match values.filter (fun v => v != 0) with
  | [] => (0, 1)
  | v :: vs =>
    let lo := vs.foldl min v
    let hi := vs.foldl max v
    let margin := max (1 / 10) (hi - lo) * (5 / 100)
    (lo - margin, hi + margin)

/-- Window size of the report loop (line 80). -/
def max_data_points : Nat := 1000

/-- `region` (lines 84–85): `values[point_idx : point_idx + max_data_points]`. -/
def region (values : List ℚ) (point_idx : Nat) : List ℚ :=
  (values.drop point_idx).take max_data_points

/-- The loop indices `range(0, n, max_data_points)` of line 97. -/
def windowStarts (n : Nat) : List Nat :=
  (List.range ((n + max_data_points - 1) / max_data_points)).map
    (fun i => i * max_data_points)

/-- The per-page windows the report loop slices out of a derived sequence. -/
def windows (values : List ℚ) : List (List ℚ) :=
  (windowStarts values.length).map (region values)

/-- Modelled from the spec's words (§4.2): "Thermistor normalization:
subtract the sample mean, multiply by a fixed scale constant (0.02)" and
"apply a third-order Butterworth filter, zero-phase-safe initial conditions
… to … (c) the normalized thermistor channel at low-pass cutoff 0.15", with
the steady-state initial state scaled by the (normalized) signal's first
sample.  Stated against the source pipeline in the C7 theorem. -/
def specThermistorLowPass (c : FilterCoeffs) (raw : List ℚ) : List ℚ :=
  let normalized := raw.map (fun v => (v - mean raw) * (2 / 100))
  (lfilter c.b_low015 c.a_low015 normalized
    (c.zi_low015.map (fun v => v * normalized.headD 0))).1

deriving instance DecidableEq for Except

/-- A concrete coefficient instance used to evaluate the model at concrete
inputs (the identity filter with a length-3 state, the state length
`lfilter_zi` produces for an order-3 design). -/
def testCoeffs : FilterCoeffs where
  b_low01 := [1]
  a_low01 := [1]
  zi_low01 := [0, 0, 0]
  b_high03 := [1]
  a_high03 := [1]
  zi_high03 := [0, 0, 0]
  b_low015 := [1]
  a_low015 := [1]
  zi_low015 := [0, 0, 0]

/-- One complete eleven-field record, as parsed from the text line
`"1,2,3,4,5,6,7,8,9,10,11"`. -/
def records0 : List (List ℚ) := [[1, 2, 3, 4, 5, 6, 7, 8, 9, 10, 11]]

/-- The object the constructor builds from `records0` under `testCoeffs`. -/
def bmf0 : BreathingMonitorFile where
  start_unix_timestamp := none
  timestamps := [1]
  positions := [2]
  angles := [3]
  azimuth := [4]
  pitch := [5]
  roll := [6]
  thermistor := [0]
  spo2 := [8]
  pulse_rate := [9]
  perfusion_index := [10]
  mean_spo2_wave := [11]
  elapsed := [0]
  low_pass := [2]
  high_pass := [2]
  thermistor_low_pass := [0]

/-- A binary file of 56 zero bytes: an 8-byte header encoding 0, then one
full 48-byte record of zeros. -/
def binFile56 : List Nat := List.replicate 56 0

/-- The object the constructor builds from `binFile56` under `testCoeffs`. -/
def bmfBin0 : BreathingMonitorFile where
  start_unix_timestamp := some 0
  timestamps := [0]
  positions := [0]
  angles := [0]
  azimuth := [0]
  pitch := [0]
  roll := [0]
  thermistor := [0]
  spo2 := [0]
  pulse_rate := [0]
  perfusion_index := [0]
  mean_spo2_wave := [0]
  elapsed := [0]
  low_pass := [0]
  high_pass := [0]
  thermistor_low_pass := [0]

/-- A binary file whose 8-byte header is the big-endian encoding of 5000
(the start timestamp in milliseconds per the file layout), followed by one
48-byte record of zeros. -/
def binFileMs5000 : List Nat := [0, 0, 0, 0, 0, 0, 19, 136] ++ List.replicate 48 0

/-- Whether construction ended in the fatal `ValueError` that aborts the
run. -/
def isFatalValueError : Except Err BreathingMonitorFile → Bool
  | .error (.valueError _) => true
  | _ => false

/-- The index of the first line of a text input that `float()` rejects (the
offending record index the spec wants reported). -/
def firstBadRecordAux : Nat → List (List Char) → Option Nat
  | _, [] => none
  | i, l :: ls => if (parseLine l).isOk then firstBadRecordAux (i + 1) ls else some i

/-- The offending record index of a text input, when one exists. -/
def firstBadRecord (s : String) : Option Nat :=
  firstBadRecordAux 0 (splitlines s.toList)

/-! ## Helper lemmas -/

theorem unpackRecord_length (chunk : List Nat) : (unpackRecord chunk).length = 11 := by
  simp [unpackRecord]

theorem lfilterAux_length (b a : List ℚ) (xs z : List ℚ) :
    (lfilterAux b a z xs).1.length = xs.length := by
  induction xs generalizing z with
  | nil => rfl
  | cons x xs ih => simp [lfilterAux, ih]

theorem lfilter_length (b a x zi : List ℚ) : (lfilter b a x zi).1.length = x.length := by
  simp [lfilter, lfilterAux_length]

theorem channelOf_length (records : List (List ℚ)) (i : Nat)
    (h : ∀ rec ∈ records, i < rec.length) :
    (channelOf records i).length = records.length := by
  induction records with
  | nil => rfl
  | cons rec recs ih =>
    cases hx : rec[i]? with
    | none =>
      rw [List.getElem?_eq_none_iff] at hx
      have := h rec (List.mem_cons_self rec recs)
      omega
    | some v =>
      simp only [channelOf, List.filterMap_cons, hx, List.length_cons]
      have := ih (fun r hr => h r (List.mem_cons_of_mem rec hr))
      simp only [channelOf] at this
      omega

theorem channelOf_ne_nil (records : List (List ℚ)) (i : Nat) (rec : List ℚ)
    (hmem : rec ∈ records) (hlt : i < rec.length) : channelOf records i ≠ [] := by
  cases hx : rec[i]? with
  | none =>
    rw [List.getElem?_eq_none_iff] at hx
    omega
  | some v =>
    exact List.ne_nil_of_mem (List.mem_filterMap.mpr ⟨rec, hmem, hx⟩)

theorem parseRecordsGo_aligned (n : Nat) : ∀ (fuel : Nat) (bs : List Nat),
    bs.length = 48 * n → n ≤ fuel →
    ∃ rs, parseRecordsGo fuel bs = .ok rs ∧ rs.length = n ∧ ∀ r ∈ rs, r.length = 11 := by
  induction n with
  | zero =>
    intro fuel bs hlen _
    have hbs : bs = [] := List.length_eq_zero.mp (by omega)
    subst hbs
    cases fuel with
    | zero => exact ⟨[], rfl, rfl, by simp⟩
    | succ f => exact ⟨[], by simp [parseRecordsGo], rfl, by simp⟩
  | succ n ih =>
    intro fuel bs hlen hfuel
    cases fuel with
    | zero => omega
    | succ f =>
      have hne : bs.isEmpty = false := by
        cases bs with
        | nil => simp at hlen
        | cons b bs => rfl
      have h48 : ¬ bs.length < 48 := by omega
      obtain ⟨rs, hrs, hlen2, hall⟩ := ih f (bs.drop 48)
        (by simp only [List.length_drop]; omega) (by omega)
      refine ⟨unpackRecord (bs.take 48) :: rs, ?_, by simp [hlen2], ?_⟩
      · simp [parseRecordsGo, hne, h48, hrs]
      · intro r hr
        rcases List.mem_cons.mp hr with hr | hr
        · rw [hr]; exact unpackRecord_length _
        · exact hall r hr

theorem parseRecordsGo_records (fuel : Nat) : ∀ (bs : List Nat) (rs : List (List ℚ)),
    parseRecordsGo fuel bs = .ok rs → ∀ r ∈ rs, r.length = 11 := by
  induction fuel with
  | zero =>
    intro bs rs h r hr
    injection h with h
    rw [← h] at hr
    simp at hr
  | succ f ih =>
    intro bs rs h r hr
    by_cases hne : bs.isEmpty
    · rw [parseRecordsGo, if_pos hne] at h
      injection h with h
      rw [← h] at hr
      simp at hr
    · by_cases h48 : bs.length < 48
      · rw [parseRecordsGo, if_neg hne, if_pos h48] at h
        exact Except.noConfusion h
      · rw [parseRecordsGo, if_neg hne, if_neg h48] at h
        cases hrec : parseRecordsGo f (bs.drop 48) with
        | error e => rw [hrec] at h; exact Except.noConfusion h
        | ok rest =>
          rw [hrec] at h
          injection h with h
          rw [← h] at hr
          rcases List.mem_cons.mp hr with hr2 | hr2
          · rw [hr2]; exact unpackRecord_length _
          · exact ih (bs.drop 48) rest hrec r hr2

theorem parseRecords_aligned (bs : List Nat) (h : bs.length % 48 = 0) :
    ∃ rs, parseRecords bs = .ok rs ∧ rs.length = bs.length / 48 ∧
      ∀ r ∈ rs, r.length = 11 := by
  obtain ⟨n, hn⟩ : ∃ n, bs.length = 48 * n := ⟨bs.length / 48, by omega⟩
  obtain ⟨rs, h1, h2, h3⟩ := parseRecordsGo_aligned n bs.length bs hn (by omega)
  exact ⟨rs, h1, by omega, h3⟩

theorem deriveSignals_ok (c : FilterCoeffs) (start? : Option ℚ)
    (records : List (List ℚ)) (r : BreathingMonitorFile)
    (h : deriveSignals c start? records = .ok r) :
    r.start_unix_timestamp = start? ∧
    r.timestamps = channelOf records 0 ∧
    r.positions = channelOf records 1 ∧
    r.angles = channelOf records 2 ∧
    r.azimuth = channelOf records 3 ∧
    r.pitch = channelOf records 4 ∧
    r.roll = channelOf records 5 ∧
    r.thermistor = (channelOf records 6).map
      (fun v => (v - mean (channelOf records 6)) * (2 / 100)) ∧
    r.spo2 = channelOf records 7 ∧
    r.pulse_rate = channelOf records 8 ∧
    r.perfusion_index = channelOf records 9 ∧
    r.mean_spo2_wave = channelOf records 10 ∧
    r.elapsed = r.timestamps.map
      (fun t => t / 1000000000 - r.timestamps.headD 0 / 1000000000) ∧
    r.low_pass = (lfilter c.b_low01 c.a_low01 r.positions
      (c.zi_low01.map (fun v => v * r.positions.headD 0))).1 ∧
    r.high_pass = (lfilter c.b_high03 c.a_high03 r.positions
      (c.zi_high03.map (fun v => v * r.positions.headD 0))).1 ∧
    r.thermistor_low_pass = (lfilter c.b_low015 c.a_low015 r.thermistor
      (c.zi_low015.map (fun v => v * r.thermistor.headD 0))).1 ∧
    r.timestamps ≠ [] ∧ r.positions ≠ [] ∧ r.thermistor ≠ [] := by
  unfold deriveSignals at h
  rcases hts : channelOf records 0 with _ | ⟨t0, tr⟩ <;> rw [hts] at h
  · exact Except.noConfusion h
  rcases hps : channelOf records 1 with _ | ⟨s0, pr⟩ <;> rw [hps] at h
  · exact Except.noConfusion h
  rcases hth : channelOf records 6 with _ | ⟨u0, ur⟩ <;> rw [hth] at h
  · simp only [List.map_nil] at h
    exact Except.noConfusion h
  simp only [List.map_cons] at h
  injection h with h
  subst h
  refine ⟨rfl, rfl, rfl, rfl, rfl, rfl, rfl, ?_, rfl, rfl, rfl, rfl,
    ?_, ?_, ?_, ?_, by simp, by simp, by simp⟩ <;> simp

theorem deriveSignals_isOk (c : FilterCoeffs) (start? : Option ℚ)
    (records : List (List ℚ))
    (h0 : channelOf records 0 ≠ []) (h1 : channelOf records 1 ≠ [])
    (h6 : channelOf records 6 ≠ []) :
    (deriveSignals c start? records).isOk = true := by
  unfold deriveSignals
  rcases hts : channelOf records 0 with _ | ⟨t0, tr⟩
  · exact absurd hts h0
  rcases hps : channelOf records 1 with _ | ⟨s0, pr⟩
  · exact absurd hps h1
  rcases hth : channelOf records 6 with _ | ⟨u0, ur⟩
  · exact absurd hth h6
  simp [Except.isOk, Except.toBool]

theorem mapExcept_error_mem (f : α → Except Err β) (xs : List α) (e : Err)
    (h : mapExcept f xs = .error e) : ∃ x ∈ xs, f x = .error e := by
  induction xs with
  | nil => exact Except.noConfusion h
  | cons x xs ih =>
    unfold mapExcept at h
    cases hx : f x with
    | error e2 =>
      rw [hx] at h
      injection h with h
      exact ⟨x, List.mem_cons_self x xs, by rw [hx, h]⟩
    | ok y =>
      rw [hx] at h
      cases hrest : mapExcept f xs with
      | error e2 =>
        rw [hrest] at h
        injection h with h
        obtain ⟨x2, hmem, hx2⟩ := ih (by rw [hrest, h])
        exact ⟨x2, List.mem_cons_of_mem x hmem, hx2⟩
      | ok ys =>
        rw [hrest] at h
        exact Except.noConfusion h

theorem parseFloat_error_shape (cs : List Char) (e : Err)
    (h : parseFloat cs = .error e) : e = .valueError (String.mk cs) := by
  unfold parseFloat at h
  cases hc : parseFloatCore cs with
  | some q => rw [hc] at h; exact Except.noConfusion h
  | none => rw [hc] at h; injection h with h; exact h.symm

theorem parseLine_error_shape (cs : List Char) (e : Err)
    (h : parseLine cs = .error e) : ∃ m, e = .valueError m := by
  obtain ⟨x, _, hx⟩ := mapExcept_error_mem parseFloat (splitOnChar ',' cs) e h
  exact ⟨String.mk x, parseFloat_error_shape x e hx⟩

theorem mapExcept_error_of_fail (f : α → Except Err β) (xs : List α)
    (h : ∃ x ∈ xs, (f x).isOk = false) : ∃ e, mapExcept f xs = .error e := by
  induction xs with
  | nil => simp at h
  | cons x xs ih =>
    unfold mapExcept
    cases hx : f x with
    | error e => exact ⟨e, rfl⟩
    | ok y =>
      obtain ⟨x2, hmem, hfail⟩ := h
      rcases List.mem_cons.mp hmem with hx2 | hx2
      · rw [hx2, hx] at hfail
        simp [Except.isOk, Except.toBool] at hfail
      · obtain ⟨e, he⟩ := ih ⟨x2, hx2, hfail⟩
        rw [he]
        exact ⟨e, rfl⟩

theorem parseInputFile_binary_ok (bs : List Nat) (p : Option ℚ × List (List ℚ))
    (h : parseInputFile (.binary bs) = .ok p) :
    p.1 = some (((int64OfBytes (bs.take 8) : Int) : ℚ) / 1000) ∧
    parseRecords (bs.drop 8) = .ok p.2 := by
  simp only [parseInputFile] at h
  by_cases h8 : bs.length < 8
  · rw [if_pos h8] at h
    exact Except.noConfusion h
  · rw [if_neg h8] at h
    cases hrec : parseRecords (bs.drop 8) with
    | error e => rw [hrec] at h; exact Except.noConfusion h
    | ok rs =>
      rw [hrec] at h
      injection h with h
      rw [← h]
      exact ⟨rfl, rfl⟩

/-! ## Concrete evaluations of the model -/

set_option maxRecDepth 10000 in
theorem deriveSignals_records0 :
    deriveSignals testCoeffs none records0 = .ok bmf0 := by
  with_unfolding_all rfl

set_option maxRecDepth 10000 in
theorem mkBreathingMonitorFile_binFile56 :
    mkBreathingMonitorFile testCoeffs (.binary binFile56) = .ok bmfBin0 := by
  with_unfolding_all rfl

/-! ## Claim theorems -/

/-- C1 (amended): for a binary input with at least the 8-byte header whose
payload is an exact multiple of the 48-byte record size, parsing succeeds
and each of the eleven channels stores exactly `(file_size - 8) / 48`
samples.  The original claim's "a trailing partial record is silently
discarded rather than raising an error" is false: see
`binary_partial_record_errors`. -/
theorem binary_aligned_record_count (bs : List Nat)
    (h8 : 8 ≤ bs.length) (hmod : (bs.length - 8) % 48 = 0) :
    (parseInputFile (.binary bs)).map
        (fun p => (List.range 11).map (fun i => (channelOf p.2 i).length))
      = .ok (List.replicate 11 ((bs.length - 8) / 48)) := by
  obtain ⟨rs, h1, h2, h3⟩ := parseRecords_aligned (bs.drop 8)
    (by simp only [List.length_drop]; omega)
  simp only [parseInputFile, if_neg (by omega : ¬ bs.length < 8), h1, Except.map]
  congr 1
  apply List.eq_replicate_iff.mpr
  refine ⟨by simp, ?_⟩
  intro x hx
  obtain ⟨i, hi, hx2⟩ := List.mem_map.mp hx
  rw [← hx2, channelOf_length rs i
    (fun rec hrec => by rw [h3 rec hrec]; exact List.mem_range.mp hi), h2]
  simp only [List.length_drop]

/-- C1 counterexample: a 55-byte binary file (8-byte header plus 47 trailing
bytes, a partial record) makes parsing raise `struct.error`; the claim
instead predicts success with `(55 - 8) / 48 = 0` complete records silently
kept. -/
theorem binary_partial_record_errors :
    parseInputFile (.binary (List.replicate 55 0)) = .error .structError ∧
    ((55 : Nat) - 8) / 48 = 0 := by
  exact ⟨by with_unfolding_all rfl, rfl⟩

/-- Witness for `binary_aligned_record_count` at the 56-byte zero file. -/
theorem binary_aligned_record_count_witness :
    (parseInputFile (.binary binFile56)).map
        (fun p => (List.range 11).map (fun i => (channelOf p.2 i).length))
      = .ok (List.replicate 11 ((binFile56.length - 8) / 48)) :=
  binary_aligned_record_count binFile56 (by decide) (by decide)

/-- C9 (amended): the start timestamp of a binary recording is obtained from
the first 8 bytes interpreted as a big-endian signed 64-bit integer, and is
stored divided by 1000 — i.e. in seconds since the epoch, not milliseconds.
The original claim's "holds that start timestamp as milliseconds" is false:
see `start_timestamp_not_milliseconds`. -/
theorem start_timestamp_seconds (c : FilterCoeffs) (bs : List Nat)
    (r : BreathingMonitorFile)
    (h : mkBreathingMonitorFile c (.binary bs) = .ok r) :
    r.start_unix_timestamp = some (((int64OfBytes (bs.take 8) : Int) : ℚ) / 1000) := by
  unfold mkBreathingMonitorFile at h
  cases hp : parseInputFile (.binary bs) with
  | error e => rw [hp] at h; exact Except.noConfusion h
  | ok p =>
    rw [hp] at h
    obtain ⟨h1, -⟩ := parseInputFile_binary_ok bs p hp
    obtain ⟨hstart, -⟩ := deriveSignals_ok c p.1 p.2 r h
    rw [hstart, h1]

set_option maxRecDepth 10000 in
/-- C9 counterexample: a binary file whose header encodes 5000 (milliseconds)
yields a recording holding `start_unix_timestamp = 5` (seconds), not 5000. -/
theorem start_timestamp_not_milliseconds :
    (mkBreathingMonitorFile testCoeffs (.binary binFileMs5000)).map
        (fun r => r.start_unix_timestamp) = .ok (some 5) ∧ (5 : ℚ) ≠ 5000 := by
  exact ⟨by with_unfolding_all rfl, by norm_num⟩

/-- Witness for `start_timestamp_seconds` at the 56-byte zero file. -/
theorem start_timestamp_seconds_witness :
    bmfBin0.start_unix_timestamp
      = some (((int64OfBytes (binFile56.take 8) : Int) : ℚ) / 1000) :=
  start_timestamp_seconds testCoeffs binFile56 bmfBin0 mkBreathingMonitorFile_binFile56

/-- C10: a binary file holding only the 8-byte header, and the empty text
file, both make the constructor fail with `IndexError` on the first-element
accesses (no empty Recording is returned); and whenever the parsed records
include at least one complete (eleven-field) record, the derivation phase
succeeds. -/
theorem construction_requires_one_record (c : FilterCoeffs) :
    (∀ bs : List Nat, bs.length = 8 →
      mkBreathingMonitorFile c (.binary bs) = .error .indexError) ∧
    mkBreathingMonitorFile c (.text "") = .error .indexError ∧
    (∀ (start? : Option ℚ) (records : List (List ℚ)) (rec : List ℚ),
      rec ∈ records → 11 ≤ rec.length →
      (deriveSignals c start? records).isOk = true) := by
  refine ⟨?_, ?_, ?_⟩
  · intro bs hlen
    have hdrop : bs.drop 8 = [] := by
      apply List.eq_nil_of_length_eq_zero
      simp only [List.length_drop]
      omega
    unfold mkBreathingMonitorFile
    simp only [parseInputFile, if_neg (by omega : ¬ bs.length < 8), hdrop]
    simp [parseRecords, parseRecordsGo, deriveSignals, channelOf]
  · rfl
  · intro start? records rec hmem hlen
    exact deriveSignals_isOk c start? records
      (channelOf_ne_nil records 0 rec hmem (by omega))
      (channelOf_ne_nil records 1 rec hmem (by omega))
      (channelOf_ne_nil records 6 rec hmem (by omega))

/-- Witness for `construction_requires_one_record` at concrete inputs. -/
theorem construction_requires_one_record_witness :
    mkBreathingMonitorFile testCoeffs (.binary (List.replicate 8 0))
      = .error .indexError ∧
    mkBreathingMonitorFile testCoeffs (.text "") = .error .indexError ∧
    (deriveSignals testCoeffs none records0).isOk = true :=
  ⟨(construction_requires_one_record testCoeffs).1 (List.replicate 8 0) (by decide),
   (construction_requires_one_record testCoeffs).2.1,
   (construction_requires_one_record testCoeffs).2.2 none records0
     [1, 2, 3, 4, 5, 6, 7, 8, 9, 10, 11] (List.mem_cons_self _ _) (by simp)⟩

/-- C2 (amended): every record a binary parse produces has exactly eleven
fields; and whenever every parsed record has at least eleven fields — true
for all binary inputs, and for text inputs whose lines all have at least
eleven comma-separated fields — a successfully constructed recording has
all eleven channel sequences of identical length (the record count).  The
original claim's "from any input file" is false: see
`channels_unequal_on_short_line`. -/
theorem channels_equal_length :
    (∀ (bs : List Nat) (p : Option ℚ × List (List ℚ)),
      parseInputFile (.binary bs) = .ok p → ∀ rec ∈ p.2, rec.length = 11) ∧
    (∀ (c : FilterCoeffs) (start? : Option ℚ) (records : List (List ℚ))
        (r : BreathingMonitorFile),
      (∀ rec ∈ records, 11 ≤ rec.length) →
      deriveSignals c start? records = .ok r →
      [r.timestamps, r.positions, r.angles, r.azimuth, r.pitch, r.roll,
        r.thermistor, r.spo2, r.pulse_rate, r.perfusion_index,
        r.mean_spo2_wave].map List.length = List.replicate 11 records.length) := by
  constructor
  · intro bs p h rec hrec
    obtain ⟨-, h2⟩ := parseInputFile_binary_ok bs p h
    exact parseRecordsGo_records (bs.drop 8).length (bs.drop 8) p.2 h2 rec hrec
  · intro c start? records r hrec h
    obtain ⟨-, ht, hp, han, haz, hpi, hro, hth, hsp, hpu, hpe, hme,
      -, -, -, -, -, -, -⟩ := deriveSignals_ok c start? records r h
    have hchan : ∀ i, i < 11 → (channelOf records i).length = records.length :=
      fun i hi => channelOf_length records i
        (fun rec hr => lt_of_lt_of_le hi (hrec rec hr))
    simp only [List.map_cons, List.map_nil, ht, hp, han, haz, hpi, hro, hth,
      hsp, hpu, hpe, hme, List.length_map]
    rw [hchan 0 (by omega), hchan 1 (by omega), hchan 2 (by omega),
      hchan 3 (by omega), hchan 4 (by omega), hchan 5 (by omega),
      hchan 6 (by omega), hchan 7 (by omega), hchan 8 (by omega),
      hchan 9 (by omega), hchan 10 (by omega)]
    rfl

set_option maxRecDepth 10000 in
/-- C2 counterexample: the text input `"1,2,3,4,5,6,7"` (one line, only seven
fields) constructs successfully, yet the eleven channels have lengths
1,1,1,1,1,1,1,0,0,0,0 — not all identical. -/
theorem channels_unequal_on_short_line :
    (mkBreathingMonitorFile testCoeffs (.text "1,2,3,4,5,6,7")).map
        (fun r => [r.timestamps.length, r.positions.length, r.angles.length,
          r.azimuth.length, r.pitch.length, r.roll.length, r.thermistor.length,
          r.spo2.length, r.pulse_rate.length, r.perfusion_index.length,
          r.mean_spo2_wave.length])
      = .ok [1, 1, 1, 1, 1, 1, 1, 0, 0, 0, 0] := by
  with_unfolding_all rfl

set_option maxRecDepth 10000 in
/-- Witness for `channels_equal_length` at concrete inputs. -/
theorem channels_equal_length_witness :
    (∀ rec ∈ [[(0 : ℚ), 0, 0, 0, 0, 0, 0, 0, 0, 0, 0]], rec.length = 11) ∧
    [bmf0.timestamps, bmf0.positions, bmf0.angles, bmf0.azimuth, bmf0.pitch,
      bmf0.roll, bmf0.thermistor, bmf0.spo2, bmf0.pulse_rate,
      bmf0.perfusion_index, bmf0.mean_spo2_wave].map List.length
      = List.replicate 11 records0.length :=
  ⟨channels_equal_length.1 binFile56 (some 0, [[0, 0, 0, 0, 0, 0, 0, 0, 0, 0, 0]])
      (by with_unfolding_all rfl),
   channels_equal_length.2 testCoeffs none records0 bmf0 (by simp [records0])
      deriveSignals_records0⟩

/-- C3 (amended): a text input containing a malformed line (a field `float()`
rejects) makes the whole construction fail with a fatal `ValueError`, so the
run aborts; but the error names the offending field text, not the offending
record index — see `text_error_lacks_record_index`. -/
theorem text_malformed_field_aborts (c : FilterCoeffs) (s : String)
    (h : ∃ line ∈ splitlines s.toList, (parseLine line).isOk = false) :
    isFatalValueError (mkBreathingMonitorFile c (.text s)) = true := by
  obtain ⟨e, he⟩ := mapExcept_error_of_fail parseLine (splitlines s.toList) h
  obtain ⟨line, hmem, hline⟩ := mapExcept_error_mem parseLine (splitlines s.toList) e he
  obtain ⟨m, hm⟩ := parseLine_error_shape line e hline
  unfold mkBreathingMonitorFile
  simp only [parseInputFile, he, hm]
  rfl

/-- C3 counterexample: the inputs `"x"` (malformed record index 0) and
`"1,2,3,4,5,6,7,8,9,10,11\nx"` (malformed record index 1) produce the very
same outcome, `ValueError` on the field text `"x"` — the failure does not
identify the offending record index. -/
theorem text_error_lacks_record_index :
    mkBreathingMonitorFile testCoeffs (.text "x")
      = mkBreathingMonitorFile testCoeffs (.text "1,2,3,4,5,6,7,8,9,10,11\nx") ∧
    mkBreathingMonitorFile testCoeffs (.text "x") = .error (.valueError "x") ∧
    firstBadRecord "x" = some 0 ∧
    firstBadRecord "1,2,3,4,5,6,7,8,9,10,11\nx" = some 1 := by
  refine ⟨?_, ?_, ?_, ?_⟩ <;> with_unfolding_all rfl

/-- Witness for `text_malformed_field_aborts` at the input `"a,b"`. -/
theorem text_malformed_field_aborts_witness :
    isFatalValueError (mkBreathingMonitorFile testCoeffs (.text "a,b")) = true :=
  text_malformed_field_aborts testCoeffs "a,b"
    ⟨['a', ',', 'b'], by decide, by with_unfolding_all rfl⟩

/-- C7: the derived thermistor-low-pass signal equals the order-3 low-pass
cutoff-0.15 Butterworth design (`b_low015`, `a_low015`, with steady-state
initial conditions `zi_low015` scaled by the signal's first sample) applied
by `lfilter` to the normalized thermistor channel, where normalization
subtracts the channel's sample mean and multiplies by 0.02 — the pipeline
the spec describes, stated as `specThermistorLowPass`. -/
theorem thermistor_low_pass_refines_spec (c : FilterCoeffs) (start? : Option ℚ)
    (records : List (List ℚ)) (r : BreathingMonitorFile)
    (h : deriveSignals c start? records = .ok r) :
    r.thermistor_low_pass = specThermistorLowPass c (channelOf records 6) := by
  obtain ⟨-, -, -, -, -, -, -, hth, -, -, -, -, -, -, -, htlp, -, -, -⟩ :=
    deriveSignals_ok c start? records r h
  rw [htlp, specThermistorLowPass, hth]

/-- Witness for `thermistor_low_pass_refines_spec` at `records0`. -/
theorem thermistor_low_pass_refines_spec_witness :
    bmf0.thermistor_low_pass = specThermistorLowPass testCoeffs (channelOf records0 6) :=
  thermistor_low_pass_refines_spec testCoeffs none records0 bmf0 deriveSignals_records0

/-- C8: each of the three filter applications — position low-pass at cutoff
0.1, position high-pass at cutoff 0.3, normalized-thermistor low-pass at
cutoff 0.15 — returns a sequence exactly as long as its input sequence. -/
theorem filters_preserve_length (c : FilterCoeffs) (start? : Option ℚ)
    (records : List (List ℚ)) (r : BreathingMonitorFile)
    (h : deriveSignals c start? records = .ok r) :
    r.low_pass.length = r.positions.length ∧
    r.high_pass.length = r.positions.length ∧
    r.thermistor_low_pass.length = r.thermistor.length := by
  obtain ⟨-, -, -, -, -, -, -, -, -, -, -, -, -, hlp, hhp, htlp, -, -, -⟩ :=
    deriveSignals_ok c start? records r h
  exact ⟨by rw [hlp, lfilter_length], by rw [hhp, lfilter_length],
    by rw [htlp, lfilter_length]⟩

/-- Witness for `filters_preserve_length` at `records0`. -/
theorem filters_preserve_length_witness :
    bmf0.low_pass.length = bmf0.positions.length ∧
    bmf0.high_pass.length = bmf0.positions.length ∧
    bmf0.thermistor_low_pass.length = bmf0.thermistor.length :=
  filters_preserve_length testCoeffs none records0 bmf0 deriveSignals_records0

/-- C4: for a successfully constructed recording, the elapsed sequence
satisfies `elapsed[i] = timestamps[i] / 1e9 - timestamps[0] / 1e9` at every
index, is nonempty with first element exactly 0, and is non-decreasing
whenever the raw timestamps are non-decreasing. -/
theorem elapsed_zero_anchored_monotone (c : FilterCoeffs) (start? : Option ℚ)
    (records : List (List ℚ)) (r : BreathingMonitorFile)
    (h : deriveSignals c start? records = .ok r) :
    (∀ i, i < r.elapsed.length →
      r.elapsed.getD i 0 =
        r.timestamps.getD i 0 / 1000000000 - r.timestamps.getD 0 0 / 1000000000) ∧
    r.elapsed ≠ [] ∧ r.elapsed.headD 0 = 0 ∧
    (List.Pairwise (fun x y => x ≤ y) r.timestamps →
      List.Pairwise (fun x y => x ≤ y) r.elapsed) := by
  obtain ⟨-, -, -, -, -, -, -, -, -, -, -, -, helap, -, -, -, htne, -, -⟩ :=
    deriveSignals_ok c start? records r h
  obtain ⟨t0, ts, hts⟩ := List.exists_cons_of_ne_nil htne
  have hhead : r.timestamps.headD 0 = t0 := by rw [hts]; rfl
  have hget0 : r.timestamps.getD 0 0 = t0 := by rw [hts]; rfl
  refine ⟨?_, ?_, ?_, ?_⟩
  · intro i hi
    rw [helap] at hi
    rw [List.length_map] at hi
    rw [helap, hhead, hget0, List.getD_eq_getElem?_getD, List.getElem?_map,
      List.getElem?_eq_getElem hi, List.getD_eq_getElem?_getD,
      List.getElem?_eq_getElem hi]
    rfl
  · rw [helap, hts]
    simp
  · rw [helap, hts]
    simp
  · intro hmono
    rw [helap]
    refine List.pairwise_map.mpr (hmono.imp ?_)
    intro a b hab
    have : a / 1000000000 ≤ b / 1000000000 := by gcongr
    exact sub_le_sub_right this _

/-- Witness for `elapsed_zero_anchored_monotone` at `records0`. -/
theorem elapsed_zero_anchored_monotone_witness :
    bmf0.elapsed ≠ [] ∧ bmf0.elapsed.headD 0 = 0 ∧
    List.Pairwise (fun x y : ℚ => x ≤ y) bmf0.elapsed :=
  ⟨(elapsed_zero_anchored_monotone testCoeffs none records0 bmf0
      deriveSignals_records0).2.1,
   (elapsed_zero_anchored_monotone testCoeffs none records0 bmf0
      deriveSignals_records0).2.2.1,
   (elapsed_zero_anchored_monotone testCoeffs none records0 bmf0
      deriveSignals_records0).2.2.2 (by simp [bmf0])⟩

/-- C5: the per-window y-limits exclude zero samples (filtering twice changes
nothing), default to `[0, 1]` when every sample is zero, equal
`[v - 0.005, v + 0.005]` on a window of constant nonzero value `v`, and in
general pad `[min, max]` of the nonzero samples by
`0.05 * max (max - min) 0.1` on each side. -/
theorem set_non_zero_ylim_spec :
    (∀ values : List ℚ,
      set_non_zero_ylim values = set_non_zero_ylim (values.filter (fun v => v != 0))) ∧
    (∀ values : List ℚ, (∀ v ∈ values, v = 0) → set_non_zero_ylim values = (0, 1)) ∧
    (∀ v : ℚ, v ≠ 0 → ∀ n : Nat, 0 < n →
      set_non_zero_ylim (List.replicate n v) = (v - 1 / 200, v + 1 / 200)) ∧
    (∀ (values : List ℚ) (v : ℚ) (vs : List ℚ),
      values.filter (fun u => u != 0) = v :: vs →
      set_non_zero_ylim values =
        (vs.foldl min v - 5 / 100 * max (vs.foldl max v - vs.foldl min v) (1 / 10),
         vs.foldl max v + 5 / 100 * max (vs.foldl max v - vs.foldl min v) (1 / 10))) := by
  have hfoldmin : ∀ (v : ℚ) (m : Nat), List.foldl min v (List.replicate m v) = v := by
    intro v m
    induction m with
    | zero => rfl
    | succ m ih => simpa [List.replicate_succ, min_self] using ih
  have hfoldmax : ∀ (v : ℚ) (m : Nat), List.foldl max v (List.replicate m v) = v := by
    intro v m
    induction m with
    | zero => rfl
    | succ m ih => simpa [List.replicate_succ, max_self] using ih
  refine ⟨?_, ?_, ?_, ?_⟩
  · intro values
    have hfil : (values.filter (fun v => v != 0)).filter (fun v => v != 0)
        = values.filter (fun v => v != 0) := by
      rw [List.filter_filter]
      simp
    simp only [set_non_zero_ylim, hfil]
  · intro values hall
    have hnil : values.filter (fun v => v != 0) = [] := by
      rw [List.filter_eq_nil_iff]
      intro a ha
      simp [hall a ha]
    simp only [set_non_zero_ylim, hnil]
  · intro v hv n hn
    obtain ⟨m, rfl⟩ : ∃ m, n = m + 1 := ⟨n - 1, by omega⟩
    have hfil : (List.replicate (m + 1) v).filter (fun u => u != 0)
        = v :: List.replicate m v := by
      rw [List.filter_eq_self.mpr (by intro a ha; simp [List.eq_of_mem_replicate ha, hv])]
      rw [List.replicate_succ]
    simp only [set_non_zero_ylim, hfil, hfoldmin, hfoldmax]
    rw [sub_self, max_eq_left (by norm_num : (0 : ℚ) ≤ 1 / 10)]
    norm_num
  · intro values v vs hfil
    simp only [set_non_zero_ylim, hfil]
    rw [max_comm, mul_comm]

/-- Witness for `set_non_zero_ylim_spec` at concrete windows. -/
theorem set_non_zero_ylim_spec_witness :
    set_non_zero_ylim [(0 : ℚ), 3]
      = set_non_zero_ylim ([(0 : ℚ), 3].filter (fun v => v != 0)) ∧
    set_non_zero_ylim [(0 : ℚ), 0] = (0, 1) ∧
    set_non_zero_ylim (List.replicate 3 (5 : ℚ)) = (5 - 1 / 200, 5 + 1 / 200) ∧
    set_non_zero_ylim [(0 : ℚ), 2, 4] =
      ([(4 : ℚ)].foldl min 2 - 5 / 100 * max ([(4 : ℚ)].foldl max 2 - [(4 : ℚ)].foldl min 2) (1 / 10),
       [(4 : ℚ)].foldl max 2 + 5 / 100 * max ([(4 : ℚ)].foldl max 2 - [(4 : ℚ)].foldl min 2) (1 / 10)) :=
  ⟨set_non_zero_ylim_spec.1 [0, 3],
   set_non_zero_ylim_spec.2.1 [0, 0] (by norm_num),
   set_non_zero_ylim_spec.2.2.1 5 (by norm_num) 3 (by norm_num),
   set_non_zero_ylim_spec.2.2.2 [0, 2, 4] 2 [4] (by with_unfolding_all rfl)⟩

/-- The window lengths of a sequence are determined by its length: window `i`
of the loop `range(0, n, 1000)` holds `min 1000 (n - i)` samples. -/
theorem windows_length_map (xs : List ℚ) :
    (windows xs).map List.length
      = (windowStarts xs.length).map (fun i => min max_data_points (xs.length - i)) := by
  rw [windows, List.map_map]
  apply List.map_congr_left
  intro i _
  simp [region, List.length_take, List.length_drop]

/-- The number of windows is the ceiling of the sample count over 1000. -/
theorem windows_count (xs : List ℚ) :
    (windows xs).length = (xs.length + max_data_points - 1) / max_data_points := by
  simp [windows, windowStarts]

/-- C6: every window except possibly the last holds exactly 1000 samples,
no window holds more than 1000, and a 2500-sample sequence yields exactly
the three windows of sizes 1000, 1000, 500. -/
theorem windows_sizes (xs : List ℚ) :
    (∀ i, i + 1 < (windows xs).length →
      ((windows xs).getD i []).length = max_data_points) ∧
    (∀ w ∈ windows xs, w.length ≤ max_data_points) ∧
    (xs.length = 2500 → (windows xs).map List.length = [1000, 1000, 500]) := by
  refine ⟨?_, ?_, ?_⟩
  · intro i hi
    rw [windows, windowStarts, List.map_map, List.length_map, List.length_range] at hi
    rw [windows, windowStarts, List.map_map, List.getD_eq_getElem?_getD,
      List.getElem?_map, List.getElem?_range (by omega)]
    simp only [Option.map_some', Option.getD_some, Function.comp_apply]
    simp only [region, List.length_take, List.length_drop, max_data_points] at hi ⊢
    omega
  · intro w hw
    rw [windows] at hw
    obtain ⟨s, -, hw2⟩ := List.mem_map.mp hw
    rw [← hw2]
    simp [region, List.length_take]
  · intro h2500
    rw [windows_length_map, h2500]
    decide

/-- Witness for `windows_sizes` at a concrete 2500-sample sequence. -/
theorem windows_sizes_witness :
    ((windows (List.replicate 2500 (0 : ℚ))).getD 0 []).length = max_data_points ∧
    (windows (List.replicate 2500 (0 : ℚ))).map List.length = [1000, 1000, 500] :=
  ⟨(windows_sizes (List.replicate 2500 0)).1 0
      (by rw [windows_count]; simp only [List.length_replicate]; decide),
   (windows_sizes (List.replicate 2500 0)).2.2 (by simp only [List.length_replicate])⟩
